import Mathlib

/-!
Verification of `synapse-spamcheck-badlist` (`bad_list_filter.py`) against its
natural-language specification.

The development shallowly embeds the module's logic:

* pure database helpers `_db_is_bad_link` / `_db_is_bad_upload` become Lean
  functions over an explicit list of table rows, with the SQL query
  `SELECT url FROM t WHERE url <= ? ORDER BY url DESC LIMIT 1` modelled as the
  lexicographically greatest row that is `<=` the key (SQLite BINARY collation:
  byte order of the UTF-8 encoding, which on these strings coincides with
  code-point order);
* the stateful availability cache (`_can_we_check_links` / `_can_we_check_md5`)
  becomes explicit state passing, and each function additionally reports how
  many real database probes it issued;
* fallible collaborator calls (`run_db_interaction`, the HTTP media download,
  `response.collect`) are modelled with `Except Unit`, where `Except.error ()`
  stands for a raised exception; a `try/except` in the source corresponds to a
  `match` that maps `.error` to a result, and the absence of one corresponds to
  propagating `.error`;
* the `linkify_it` matcher is an external library, so it enters the model as an
  explicit collaborator function `String → List String` returning the
  `match.url` values extracted from a text (its `test` method is a fast
  pre-filter for `match` and is semantically transparent here: an empty match
  list makes the inner loop a no-op either way);
* `hashlib.md5` is embedded as a full executable implementation of RFC 1321 MD5
  over byte lists (`Nat`s below 256), with 32-bit arithmetic carried out in
  `Nat` modulo `2^32`;
* Python `str.lower` is modelled by ASCII case folding (all strings occurring
  in the claims are ASCII).
-/

/-! ## Byte-order string comparison (SQLite BINARY collation) -/

/-- Lexicographic order on character lists by code point; on UTF-8 encoded
strings this coincides with SQLite's BINARY (memcmp) collation used by
`url <= ?`. -/
def lexLe : List Char → List Char → Bool
  | [], _ => true
  | _ :: _, [] => false
  | a :: as, b :: bs =>
    if a.toNat < b.toNat then true
    else if b.toNat < a.toNat then false
    else lexLe as bs

/-- SQL `<=` on strings (BINARY collation). -/
def strLe (a b : String) : Bool := lexLe a.data b.data

/-- Python `link.startswith(row)`. -/
def startswith (s p : String) : Bool := List.isPrefixOf p.data s.data

/-! ## The pure database helpers -/

/-- The row returned by
`SELECT url FROM t WHERE url <= ? ORDER BY url DESC LIMIT 1`:
the greatest row (in BINARY order) among those `<= link`, if any.
`rows` are the contents of the links table. -/
def closestUrl : List String → String → Option String
  | [], _ => none
  | u :: rest, link =>
    let r := closestUrl rest link
    if strLe u link then
      match r with
      | none => some u
      | some v => if strLe v u then some u else some v
    else r

/-- `_db_is_bad_link(db, table, link)` from the source: fetch the closest row
`<= link`; if none, return `False`; otherwise return
`link.startswith(row[0])`. -/
def db_is_bad_link (rows : List String) (link : String) : Bool :=
  match closestUrl rows link with
  | none => false
  | some row => startswith link row

/-- `_db_is_bad_upload(db, table, md5)` from the source:
`SELECT md5 FROM t WHERE md5 = ?`, then `fetchone()` is truthy iff some row
equals the digest. -/
def db_is_bad_upload (rows : List String) (md5 : String) : Bool :=
  match rows.filter (fun r => r == md5) with
  | [] => false
  | _ :: _ => true

/-! ## URL normalization performed by `check_event_for_spam`

`link = re.sub(self._scheme_re, "", match.url.lower())` with
`_scheme_re = re.compile("https?:/*|git:/*|ftp:/*")`.
`re.sub` scans left to right, trying the alternatives in order at each
position (the optional `s` backtracks, so `https:` is preferred over `http:`
exactly when an `s` follows), removes each match (a scheme literal followed by
a greedy run of slashes), and resumes right after it. -/

/-- Greedy `/*`: drop the leading run of slashes. -/
def stripSlashes (l : List Char) : List Char := l.dropWhile (fun c => c == '/')

/-- Python `re.sub("https?:/*|git:/*|ftp:/*", "", s)` on the character list of
an (already lower-cased) string, with a fuel argument for structural
recursion; every step consumes at least one character, so any fuel of at
least `cs.length` yields the untruncated substitution. -/
def subSchemesF : Nat → List Char → List Char
  | 0, cs => cs
  | fuel + 1, cs =>
    match cs with
    | 'h' :: 't' :: 't' :: 'p' :: 's' :: ':' :: rest => subSchemesF fuel (stripSlashes rest)
    | 'h' :: 't' :: 't' :: 'p' :: ':' :: rest => subSchemesF fuel (stripSlashes rest)
    | 'g' :: 'i' :: 't' :: ':' :: rest => subSchemesF fuel (stripSlashes rest)
    | 'f' :: 't' :: 'p' :: ':' :: rest => subSchemesF fuel (stripSlashes rest)
    | c :: rest => c :: subSchemesF fuel rest
    | [] => []

/-- Python `re.sub("https?:/*|git:/*|ftp:/*", "", s)`. -/
def subSchemes (cs : List Char) : List Char := subSchemesF cs.length cs

/-- Python `str.lower()`, modelled as per-character ASCII case folding (all
strings appearing in this development are ASCII). -/
def lowerStr (s : String) : String := String.mk (s.data.map Char.toLower)

/-- `match.url.lower()` followed by scheme stripping. -/
def normalize_link (u : String) : String :=
  String.mk (subSchemes (lowerStr u).data)

/-! ## The `mxc://` regular expression

`re.match("mxc://(?P<server_name>.*)/(?P<media_id>.*)", url)`: anchored at the
start, `.` does not match a newline, both groups are greedy, and the match need
not reach the end of the string. So a match exists iff the url starts with
`mxc://` and a `/` occurs in the longest newline-free prefix of the remainder;
`server_name` is everything before the last such `/`, and `media_id` is the
longest newline-free run after it. -/

/-- Index of the last `/` in a character list, if any. -/
def lastSlash : List Char → Option Nat
  | [] => none
  | c :: cs =>
    match lastSlash cs with
    | some k => some (k + 1)
    | none => if c == '/' then some 0 else none

/-- The embedded `self._mxc_re.match(url)`, returning the two captured
groups. -/
def mxcMatch (url : String) : Option (String × String) :=
  if startswith url "mxc://" then
    let rest := (url.drop 6).data
    let nlFree := rest.takeWhile (fun c => c != '\n')
    match lastSlash nlFree with
    | none => none
    | some k =>
      some (String.mk (rest.take k),
            String.mk ((rest.drop (k + 1)).takeWhile (fun c => c != '\n')))
  else none

/-! ## `urllib.parse.quote` (default `safe='/'`) -/

/-- UTF-8 encoding of one code point. -/
def utf8Encode (c : Char) : List Nat :=
  let n := c.toNat
  if n < 0x80 then [n]
  else if n < 0x800 then [0xC0 + n / 64, 0x80 + n % 64]
  else if n < 0x10000 then
    [0xE0 + n / 4096, 0x80 + n / 64 % 64, 0x80 + n % 64]
  else
    [0xF0 + n / 262144, 0x80 + n / 4096 % 64, 0x80 + n / 64 % 64, 0x80 + n % 64]

/-- Characters `urllib.parse.quote` leaves unescaped with the default
`safe='/'`: ASCII letters, digits, `_.-~` and `/`. -/
def quoteSafe (c : Char) : Bool :=
  ('a' ≤ c && c ≤ 'z') || ('A' ≤ c && c ≤ 'Z') || ('0' ≤ c && c ≤ '9') ||
  c == '_' || c == '.' || c == '-' || c == '~' || c == '/'

/-- Uppercase hexadecimal digit. -/
def hexDigitUpper (n : Nat) : Char :=
  if n < 10 then Char.ofNat (48 + n) else Char.ofNat (55 + n)

/-- `urllib.parse.quote(s)` with the default `safe='/'`. -/
def urlquote (s : String) : String :=
  String.mk (s.data.flatMap fun c =>
    if quoteSafe c then [c]
    else (utf8Encode c).flatMap fun b =>
      ['%', hexDigitUpper (b / 16), hexDigitUpper (b % 16)])

/-! ## MD5 (RFC 1321), as computed by `hashlib.md5` -/

/-- The 64 round constants `K[i] = floor(2^32 * |sin(i + 1)|)`. -/
def md5K : List Nat :=
  [0xd76aa478, 0xe8c7b756, 0x242070db, 0xc1bdceee,
   0xf57c0faf, 0x4787c62a, 0xa8304613, 0xfd469501,
   0x698098d8, 0x8b44f7af, 0xffff5bb1, 0x895cd7be,
   0x6b901122, 0xfd987193, 0xa679438e, 0x49b40821,
   0xf61e2562, 0xc040b340, 0x265e5a51, 0xe9b6c7aa,
   0xd62f105d, 0x02441453, 0xd8a1e681, 0xe7d3fbc8,
   0x21e1cde6, 0xc33707d6, 0xf4d50d87, 0x455a14ed,
   0xa9e3e905, 0xfcefa3f8, 0x676f02d9, 0x8d2a4c8a,
   0xfffa3942, 0x8771f681, 0x6d9d6122, 0xfde5380c,
   0xa4beea44, 0x4bdecfa9, 0xf6bb4b60, 0xbebfbc70,
   0x289b7ec6, 0xeaa127fa, 0xd4ef3085, 0x04881d05,
   0xd9d4d039, 0xe6db99e5, 0x1fa27cf8, 0xc4ac5665,
   0xf4292244, 0x432aff97, 0xab9423a7, 0xfc93a039,
   0x655b59c3, 0x8f0ccc92, 0xffeff47d, 0x85845dd1,
   0x6fa87e4f, 0xfe2ce6e0, 0xa3014314, 0x4e0811a1,
   0xf7537e82, 0xbd3af235, 0x2ad7d2bb, 0xeb86d391]

/-- Per-round left-rotation amounts. -/
def md5S : List Nat :=
  [7, 12, 17, 22, 7, 12, 17, 22, 7, 12, 17, 22, 7, 12, 17, 22,
   5, 9, 14, 20, 5, 9, 14, 20, 5, 9, 14, 20, 5, 9, 14, 20,
   4, 11, 16, 23, 4, 11, 16, 23, 4, 11, 16, 23, 4, 11, 16, 23,
   6, 10, 15, 21, 6, 10, 15, 21, 6, 10, 15, 21, 6, 10, 15, 21]

/-- 32-bit complement. -/
def not32 (x : Nat) : Nat := 0xffffffff ^^^ x

/-- 32-bit left rotation (inputs kept below `2^32`). -/
def rotl32 (x n : Nat) : Nat := ((x <<< n) ||| (x >>> (32 - n))) % 4294967296

/-- Round function and message-word index for round `i`. -/
def md5FG (b c d i : Nat) : Nat × Nat :=
  if i < 16 then ((b &&& c) ||| (not32 b &&& d), i)
  else if i < 32 then ((d &&& b) ||| (not32 d &&& c), (5 * i + 1) % 16)
  else if i < 48 then (b ^^^ c ^^^ d, (3 * i + 5) % 16)
  else (c ^^^ (b ||| not32 d), (7 * i) % 16)

/-- One MD5 round on the state `(a, b, c, d)`. -/
def md5Step (w : Nat → Nat) (st : Nat × Nat × Nat × Nat) (i : Nat) :
    Nat × Nat × Nat × Nat :=
  let (a, b, c, d) := st
  let (f, g) := md5FG b c d i
  let f2 := (f + a + md5K.getD i 0 + w g) % 4294967296
  (d, (b + rotl32 f2 (md5S.getD i 0)) % 4294967296, b, c)

/-- Compress one 64-byte block (little-endian words) into the state. -/
def md5Compress (st : Nat × Nat × Nat × Nat) (blk : List Nat) :
    Nat × Nat × Nat × Nat :=
  let w := fun g =>
    blk.getD (4 * g) 0 + 256 * blk.getD (4 * g + 1) 0 +
    65536 * blk.getD (4 * g + 2) 0 + 16777216 * blk.getD (4 * g + 3) 0
  let (a, b, c, d) := (List.range 64).foldl (md5Step w) st
  let (h0, h1, h2, h3) := st
  ((h0 + a) % 4294967296, (h1 + b) % 4294967296,
   (h2 + c) % 4294967296, (h3 + d) % 4294967296)

/-- Fold all 64-byte blocks of an already padded message (fuel-indexed for
structural recursion; each step consumes a nonempty chunk, so any fuel of at
least `l.length` processes the whole message). -/
def md5BlocksF : Nat → (Nat × Nat × Nat × Nat) → List Nat → Nat × Nat × Nat × Nat
  | 0, st, _ => st
  | _, st, [] => st
  | fuel + 1, st, b :: bs =>
    md5BlocksF fuel (md5Compress st ((b :: bs).take 64)) ((b :: bs).drop 64)

/-- Fold all 64-byte blocks of an already padded message. -/
def md5Blocks (st : Nat × Nat × Nat × Nat) (l : List Nat) :
    Nat × Nat × Nat × Nat :=
  md5BlocksF l.length st l

/-- RFC 1321 padding: `0x80`, zeros to 56 mod 64, then the bit length as a
little-endian 64-bit number. -/
def md5Pad (msg : List Nat) : List Nat :=
  let len := msg.length
  msg ++ [0x80] ++ List.replicate ((119 - len % 64) % 64) 0 ++
    (List.range 8).map (fun i => ((8 * len) >>> (8 * i)) % 256)

/-- The 16 digest bytes of a byte-list message. -/
def md5Digest (msg : List Nat) : List Nat :=
  let (a, b, c, d) :=
    md5Blocks (0x67452301, 0xefcdab89, 0x98badcfe, 0x10325476) (md5Pad msg)
  ([a, b, c, d].map (fun h => (List.range 4).map fun i => (h >>> (8 * i)) % 256)).flatten

/-- Lowercase hexadecimal digit. -/
def hexDigitLower (n : Nat) : Char :=
  if n < 10 then Char.ofNat (48 + n) else Char.ofNat (87 + n)

/-- `hashlib.md5(msg).hexdigest()`. -/
def md5hex (msg : List Nat) : String :=
  String.mk (((md5Digest msg).map fun b =>
    [hexDigitLower (b / 16 % 16), hexDigitLower (b % 16)]).flatten)

/-! ## Events, configuration, collaborators, and filter state -/

/-- A Synapse event as consumed by `check_event_for_spam`. The source reads
`event["type"]` and then `content.get(key, default)`; a missing `content` or a
missing key behaves exactly like the default `""`, so the content fields are
plain strings with `""` standing for an absent key. -/
structure Event where
  type : String
  body : String
  formatted_body : String
  msgtype : String
  url : String

/-- The module configuration (`links_table`, `md5_table`, `base_url`).
`none` models a `None` table name in `homeserver.yaml`. -/
structure Config where
  links_table : Option String
  md5_table : Option String
  base_url : String

/-- The result of the HTTP media download: a status code, plus the outcome of
`response.collect` — either the concatenation of all streamed batches (the
MD5 of the concatenation equals the MD5 accumulated batch-by-batch), or an
exception raised while consuming the stream. -/
structure Response where
  code : Nat
  collect : Except Unit (List Nat)

/-- The external collaborators of the filter, with `Except.error ()` standing
for a raised exception:

* `probeLinksOk` / `probeMd5Ok`: whether the availability probe
  (`SELECT ... LIMIT 1` via `run_db_interaction`) succeeds;
* `isBadLink` / `isBadUpload`: the `run_db_interaction` calls running
  `_db_is_bad_link` / `_db_is_bad_upload`; in the healthy case they are
  `fun k => .ok (db_is_bad_link rows k)` (resp. `db_is_bad_upload`);
* `request`: `self._api.http_client.request("GET", url)`;
* `linkify`: the `match.url` values produced by the `linkify_it` matcher on a
  text (the library's `test` method is a fast pre-filter whose failure implies
  an empty match list, so it needs no separate model). -/
structure Api where
  probeLinksOk : Bool
  probeMd5Ok : Bool
  isBadLink : String → Except Unit Bool
  isBadUpload : String → Except Unit Bool
  request : String → Except Unit Response
  linkify : String → List String

/-- The mutable per-instance cache `self._can_we_check_links` /
`self._can_we_check_md5` (`none` = not yet checked). -/
structure FilterState where
  can_links : Option Bool
  can_md5 : Option Bool

/-- `can_we_check_links` from the source: return the cached value if set;
otherwise a `None` table name caches `False`; otherwise probe once, caching
`True` on success and `False` on any exception. The third component counts
the real database probes issued by this call. -/
def can_we_check_links (api : Api) (cfg : Config) (s : FilterState) :
    Bool × FilterState × Nat :=
  match s.can_links with
  | some b => (b, s, 0)
  | none =>
    match cfg.links_table with
    | none => (false, { s with can_links := some false }, 0)
    | some _ =>
      if api.probeLinksOk then (true, { s with can_links := some true }, 1)
      else (false, { s with can_links := some false }, 1)

/-- `can_we_check_md5` from the source, mirroring `can_we_check_links`. -/
def can_we_check_md5 (api : Api) (cfg : Config) (s : FilterState) :
    Bool × FilterState × Nat :=
  match s.can_md5 with
  | some b => (b, s, 0)
  | none =>
    match cfg.md5_table with
    | none => (false, { s with can_md5 := some false }, 0)
    | some _ =>
      if api.probeMd5Ok then (true, { s with can_md5 := some true }, 1)
      else (false, { s with can_md5 := some false }, 1)

/-- The inner loop `for match in self._linkifier.match(text) or []`: normalize
each extracted url and ask the database; return `True` on the first bad link.
The lookup is not wrapped in a `try`, so an exception propagates. The second
component logs the normalized links actually looked up. -/
def scan_matches (api : Api) : List String → Except Unit Bool × List String
  | [] => (.ok false, [])
  | u :: rest =>
    let link := normalize_link u
    match api.isBadLink link with
    | .error e => (.error e, [link])
    | .ok true => (.ok true, [link])
    | .ok false =>
      let (r, log) := scan_matches api rest
      (r, link :: log)

/-- The outer loop `for text in [body, formatted_body]`. -/
def scan_texts (api : Api) : List String → Except Unit Bool × List String
  | [] => (.ok false, [])
  | t :: rest =>
    let (r, log) := scan_matches api (api.linkify t)
    match r with
    | .error e => (.error e, log)
    | .ok true => (.ok true, log)
    | .ok false =>
      let (r2, log2) := scan_texts api rest
      (r2, log ++ log2)

/-- The message types whose `url` is hash-checked. -/
def media_msgtypes : List String := ["m.file", "m.image", "m.audio"]

/-- The media block of `check_event_for_spam` (lines 147-173 of the source),
reached once the md5 list is known to be checkable: match the `mxc://` url,
download the content (exceptions and 429 responses are absorbed to `False`),
hash it, and ask the database. The `response.collect` and
`run_db_interaction` calls are outside the `try`, so their exceptions
propagate. The second component logs the digests looked up. -/
def check_upload (api : Api) (cfg : Config) (url : String) :
    Except Unit Bool × List String :=
  match mxcMatch url with
  | none => (.ok false, [])
  | some (server_name, media_id) =>
    let dl := cfg.base_url ++ "/_matrix/media/r0/download/" ++
      urlquote server_name ++ "/" ++ urlquote media_id
    match api.request dl with
    | .error _ => (.ok false, [])
    | .ok response =>
      if response.code == 429 then (.ok false, [])
      else
        match response.collect with
        | .error e => (.error e, [])
        | .ok bs =>
          let digest := md5hex bs
          match api.isBadUpload digest with
          | .error e => (.error e, [digest])
          | .ok r => (.ok r, [digest])

/-- The outcome of one `check_event_for_spam` call: the returned value (or a
propagated exception), the updated availability cache, and the normalized
links and digests looked up in the database. -/
structure CheckResult where
  result : Except Unit Bool
  state : FilterState
  linkLookups : List String
  md5Lookups : List String

/-- `check_event_for_spam` from the source: non-message events pass; if the
link list is checkable, both text candidates are scanned and the first bad
link rejects; then, for media message types, if the md5 list is checkable the
upload is hash-checked; otherwise the event passes. -/
def check_event_for_spam (api : Api) (cfg : Config) (s : FilterState)
    (event : Event) : CheckResult :=
  if event.type ≠ "m.room.message" then ⟨.ok false, s, [], []⟩
  else
    let cl := can_we_check_links api cfg s
    let sc :=
      if cl.1 then scan_texts api [event.body, event.formatted_body]
      else (.ok false, [])
    match sc.1 with
    | .error e => ⟨.error e, cl.2.1, sc.2, []⟩
    | .ok true => ⟨.ok true, cl.2.1, sc.2, []⟩
    | .ok false =>
      if media_msgtypes.contains event.msgtype then
        let cm := can_we_check_md5 api cfg cl.2.1
        if !cm.1 then ⟨.ok false, cm.2.1, sc.2, []⟩
        else
          let up := check_upload api cfg event.url
          ⟨up.1, cm.2.1, sc.2, up.2⟩
      else ⟨.ok false, cl.2.1, sc.2, []⟩

/-! ## Definitions taken from the specification's words

These two definitions follow the spec, not the source; they exist to be
compared with the behavior of the embedded code. -/

/-- Modelled from the spec: `s` occurs in `t` as a contiguous run of
characters. -/
def hasSubstrList (s : List Char) : List Char → Bool
  | [] => s.isEmpty
  | c :: t2 => s.isPrefixOf (c :: t2) || hasSubstrList s t2

/-- Modelled from the spec: raw substring containment over a text exactly as
given. -/
def hasSubstr (t s : String) : Bool := hasSubstrList s.data t.data

/-- Modelled from the spec: "for all texts T containing a blocked substring S
as a contiguous run" — some blocklist entry occurs contiguously in some
candidate text, with no normalization of any kind. -/
def raw_match (rows : List String) (texts : List String) : Bool :=
  texts.any fun t => rows.any fun s => hasSubstr t s

/-! ## Concrete fixtures for closed statements -/

/-- A configuration with both table names present. -/
def cfgX : Config := ⟨some "links_table", some "md5_table", "http://server"⟩

/-- Collaborators whose availability probes raise (the store is down); the
remaining operations are inert. -/
def apiProbeFail : Api :=
  ⟨false, false, fun _ => .ok false, fun _ => .ok false,
   fun _ => .error (), fun _ => []⟩

/-- Collaborators whose availability probes succeed (the store has
recovered); the remaining operations are inert. -/
def apiProbeOk : Api :=
  ⟨true, true, fun _ => .ok false, fun _ => .ok false,
   fun _ => .error (), fun _ => []⟩

/-! ## Order lemmas for the BINARY collation -/

/-- `Char.toNat` is injective. -/
theorem char_eq_of_toNat_eq {x y : Char} (h : x.toNat = y.toNat) : x = y :=
  Char.eq_of_val_eq (UInt32.ext h)

/-- Head/tail characterization of `lexLe` on cons cells. -/
theorem lexLe_cons_iff (x y : Char) (xs ys : List Char) :
    lexLe (x :: xs) (y :: ys) = true ↔
      x.toNat < y.toNat ∨ (x.toNat = y.toNat ∧ lexLe xs ys = true) := by
  by_cases h1 : x.toNat < y.toNat
  · simp [lexLe, h1]
  · by_cases h2 : y.toNat < x.toNat
    · have hne : ¬x.toNat = y.toNat := by omega
      simp [lexLe, h1, h2, hne]
    · have heq : x.toNat = y.toNat := by omega
      simp [lexLe, h1, h2, heq]

/-- `lexLe` is reflexive. -/
theorem lexLe_refl (l : List Char) : lexLe l l = true := by
  induction l with
  | nil => rfl
  | cons a as ih => simp [lexLe_cons_iff, ih]

/-- `lexLe` is total. -/
theorem lexLe_total (a b : List Char) : lexLe a b = true ∨ lexLe b a = true := by
  induction a generalizing b with
  | nil => left; rfl
  | cons x xs ih =>
    cases b with
    | nil => right; rfl
    | cons y ys =>
      rcases Nat.lt_trichotomy x.toNat y.toNat with h | h | h
      · left; simp [lexLe_cons_iff, h]
      · rcases ih ys with h2 | h2
        · left; simp [lexLe_cons_iff, h, h2]
        · right; simp [lexLe_cons_iff, h.symm, h2]
      · right; simp [lexLe_cons_iff, h]

/-- `lexLe` is transitive. -/
theorem lexLe_trans : ∀ {a b c : List Char},
    lexLe a b = true → lexLe b c = true → lexLe a c = true := by
  intro a
  induction a with
  | nil => intro b c _ _; rfl
  | cons x xs ih =>
    intro b c hab hbc
    cases b with
    | nil => simp [lexLe] at hab
    | cons y ys =>
      cases c with
      | nil => simp [lexLe] at hbc
      | cons z zs =>
        rw [lexLe_cons_iff] at hab hbc ⊢
        rcases hab with h | ⟨hxy, hab⟩
        · rcases hbc with h2 | ⟨hyz, _⟩
          · exact Or.inl (by omega)
          · exact Or.inl (by omega)
        · rcases hbc with h2 | ⟨hyz, hbc⟩
          · exact Or.inl (by omega)
          · exact Or.inr ⟨by omega, ih hab hbc⟩

/-- `lexLe` is antisymmetric. -/
theorem lexLe_antisymm : ∀ {a b : List Char},
    lexLe a b = true → lexLe b a = true → a = b := by
  intro a
  induction a with
  | nil =>
    intro b _ hba
    cases b with
    | nil => rfl
    | cons y ys => simp [lexLe] at hba
  | cons x xs ih =>
    intro b hab hba
    cases b with
    | nil => simp [lexLe] at hab
    | cons y ys =>
      rw [lexLe_cons_iff] at hab hba
      rcases hab with h | ⟨hxy, hab⟩
      · rcases hba with h2 | ⟨h2, _⟩ <;> omega
      · rcases hba with h2 | ⟨h2, hba⟩
        · omega
        · rw [char_eq_of_toNat_eq hxy, ih hab hba]

/-- `strLe` is reflexive. -/
theorem strLe_refl (s : String) : strLe s s = true := lexLe_refl s.data

/-- `strLe` is total. -/
theorem strLe_total (a b : String) : strLe a b = true ∨ strLe b a = true :=
  lexLe_total a.data b.data

/-- `strLe` is transitive. -/
theorem strLe_trans {a b c : String} (h1 : strLe a b = true)
    (h2 : strLe b c = true) : strLe a c = true := lexLe_trans h1 h2

/-- `strLe` is antisymmetric. -/
theorem strLe_antisymm {a b : String} (h1 : strLe a b = true)
    (h2 : strLe b a = true) : a = b := by
  cases a; cases b
  exact congrArg String.mk (lexLe_antisymm h1 h2)

/-! ## Characterization of the single-row SQL lookup -/

/-- If the `ORDER BY url DESC LIMIT 1` query returns no row, no row of the
table is `<=` the key. -/
theorem closestUrl_none : ∀ {rows : List String} {link : String},
    closestUrl rows link = none → ∀ v ∈ rows, strLe v link = false := by
  intro rows
  induction rows with
  | nil => intro link _ v hv; cases hv
  | cons w rest ih =>
    intro link h v hv
    rw [closestUrl] at h
    by_cases hw : strLe w link = true
    · rw [if_pos hw] at h
      rcases hr : closestUrl rest link with _ | v0 <;> rw [hr] at h
      · cases h
      · by_cases hc : strLe v0 w = true <;> simp [hc] at h
    · rw [if_neg hw] at h
      rcases List.mem_cons.mp hv with rfl | hv2
      · simpa using hw
      · exact ih h v hv2

/-- If the query returns a row, that row belongs to the table, is `<=` the
key, and dominates every other row that is `<=` the key. -/
theorem closestUrl_some : ∀ {rows : List String} {link u : String},
    closestUrl rows link = some u →
      u ∈ rows ∧ strLe u link = true ∧
        ∀ v ∈ rows, strLe v link = true → strLe v u = true := by
  intro rows
  induction rows with
  | nil => intro link u h; simp [closestUrl] at h
  | cons w rest ih =>
    intro link u h
    rw [closestUrl] at h
    by_cases hw : strLe w link = true
    · rw [if_pos hw] at h
      rcases hr : closestUrl rest link with _ | v0
      · rw [hr] at h
        cases h
        refine ⟨List.mem_cons_self w rest, hw, ?_⟩
        intro v hv hvlink
        rcases List.mem_cons.mp hv with rfl | hv2
        · exact lexLe_refl _
        · cases (closestUrl_none hr v hv2).symm.trans hvlink
      · rw [hr] at h
        dsimp only at h
        obtain ⟨hv0mem, hv0le, hv0max⟩ := ih hr
        by_cases hcmp : strLe v0 w = true
        · rw [if_pos hcmp] at h
          cases h
          refine ⟨List.mem_cons_self _ _, hw, ?_⟩
          intro v hv hvlink
          rcases List.mem_cons.mp hv with rfl | hv2
          · exact lexLe_refl _
          · exact strLe_trans (hv0max v hv2 hvlink) hcmp
        · rw [if_neg hcmp] at h
          cases h
          refine ⟨List.mem_cons_of_mem w hv0mem, hv0le, ?_⟩
          intro v hv hvlink
          rcases List.mem_cons.mp hv with rfl | hv2
          · rcases strLe_total v u with h2 | h2
            · exact h2
            · cases hcmp h2
          · exact hv0max v hv2 hvlink
    · rw [if_neg hw] at h
      obtain ⟨hmem, hle, hmax⟩ := ih h
      refine ⟨List.mem_cons_of_mem w hmem, hle, ?_⟩
      intro v hv hvlink
      rcases List.mem_cons.mp hv with rfl | hv2
      · cases hw hvlink
      · exact hmax v hv2 hvlink

/-- Exact characterization of `_db_is_bad_link`: it reports a bad link iff
some table row is `<=` the link, is a prefix of the link (`startswith`), and
dominates every row `<=` the link — i.e. the one row inspected is the
lexicographically greatest row not exceeding the link. -/
theorem db_is_bad_link_iff (rows : List String) (link : String) :
    db_is_bad_link rows link = true ↔
      ∃ u, u ∈ rows ∧ strLe u link = true ∧ startswith link u = true ∧
        ∀ v ∈ rows, strLe v link = true → strLe v u = true := by
  constructor
  · intro h
    rw [db_is_bad_link] at h
    rcases hr : closestUrl rows link with _ | w <;> rw [hr] at h
    · cases h
    · obtain ⟨hmem, hle, hmax⟩ := closestUrl_some hr
      exact ⟨w, hmem, hle, h, hmax⟩
  · rintro ⟨u, hmem, hle, hpre, hmax⟩
    rw [db_is_bad_link]
    rcases hr : closestUrl rows link with _ | w
    · cases (closestUrl_none hr u hmem).symm.trans hle
    · obtain ⟨hwmem, hwle, hwmax⟩ := closestUrl_some hr
      have h1 : strLe u w = true := hwmax u hmem hle
      have h2 : strLe w u = true := hmax w hwmem hwle
      rw [strLe_antisymm h2 h1]
      exact hpre

/-! ## The scanning loops under a healthy database -/

/-- With a healthy database over `rows`, the inner match loop returns `ok` of
"some extracted url normalizes to a bad link" and never an exception. -/
theorem scan_matches_pure_eq {rows : List String} {api : Api}
    (hdb : ∀ l, api.isBadLink l = .ok (db_is_bad_link rows l)) :
    ∀ us : List String, (scan_matches api us).1 =
      .ok (us.any fun u => db_is_bad_link rows (normalize_link u)) := by
  intro us
  induction us with
  | nil => simp [scan_matches]
  | cons u rest ih =>
    rw [scan_matches, hdb]
    by_cases hb : db_is_bad_link rows (normalize_link u) = true
    · simp [hb]
    · rw [Bool.not_eq_true] at hb
      rcases hsm : scan_matches api rest with ⟨r, log⟩
      rw [hsm] at ih
      simp [hb, hsm, ih]

/-- With a healthy database over `rows`, the candidate-text loop returns `ok`
of "some candidate text contains an extracted url normalizing to a bad link"
and never an exception. -/
theorem scan_texts_pure_eq {rows : List String} {api : Api}
    (hdb : ∀ l, api.isBadLink l = .ok (db_is_bad_link rows l)) :
    ∀ ts : List String, (scan_texts api ts).1 =
      .ok (ts.any fun t =>
        (api.linkify t).any fun u => db_is_bad_link rows (normalize_link u)) := by
  intro ts
  induction ts with
  | nil => simp [scan_texts]
  | cons t rest ih =>
    rw [scan_texts]
    rcases hsm : scan_matches api (api.linkify t) with ⟨r, log⟩
    have hr : r = .ok ((api.linkify t).any fun u =>
        db_is_bad_link rows (normalize_link u)) := by
      have := scan_matches_pure_eq hdb (api.linkify t)
      rw [hsm] at this
      exact this
    subst hr
    by_cases hb : ((api.linkify t).any fun u =>
        db_is_bad_link rows (normalize_link u)) = true
    · simp [hb]
    · rw [Bool.not_eq_true] at hb
      rcases hst : scan_texts api rest with ⟨r2, log2⟩
      rw [hst] at ih
      simp [hb, hst, ih]

/-! ## Claim C9 -/

/-- Claim C9: for every table contents and link, `_db_is_bad_link` returns
true iff the lexicographically greatest stored url that is `<=` the link
exists and is a prefix of the link; it inspects only that single row, so it
is not equivalent to "some stored url is a prefix of the link": a shorter
stored prefix is missed whenever a non-prefix url sorts between it and the
link. -/
theorem c9_single_row_lookup :
    (∀ rows link, db_is_bad_link rows link = true ↔
      ∃ u, u ∈ rows ∧ strLe u link = true ∧ startswith link u = true ∧
        ∀ v ∈ rows, strLe v link = true → strLe v u = true) ∧
    db_is_bad_link ["evil.example.com/", "evil.example.com/a"]
      "evil.example.com/bad" = false ∧
    "evil.example.com/" ∈ (["evil.example.com/", "evil.example.com/a"] : List String) ∧
    startswith "evil.example.com/bad" "evil.example.com/" = true :=
  ⟨db_is_bad_link_iff, by decide, by decide, by decide⟩

/-- Witness for C9: applying the characterization at a concrete table where
the greatest row `<=` the link is a prefix yields a rejection. -/
theorem c9_single_row_lookup_witness :
    db_is_bad_link ["evil.example.com"] "evil.example.com/bad" = true :=
  (c9_single_row_lookup.1 ["evil.example.com"] "evil.example.com/bad").mpr
    ⟨"evil.example.com", by decide, by decide, by decide, by decide⟩

/-! ## Claim C10 -/

/-- Claim C10: once an availability value has been computed and cached, every
subsequent call — with any collaborators and any configuration, i.e. after
any elapsed time and any change in store health — returns that same value,
leaves the state unchanged, and performs no database probe. -/
theorem c10_cache_never_transitions (api api2 : Api) (cfg cfg2 : Config)
    (s : FilterState) (b b2 : Bool) :
    (s.can_links = some b → can_we_check_links api cfg s = (b, s, 0)) ∧
    (s.can_md5 = some b2 → can_we_check_md5 api2 cfg2 s = (b2, s, 0)) := by
  constructor
  · intro h; rw [can_we_check_links, h]
  · intro h; rw [can_we_check_md5, h]

/-- Witness for C10: with a cache holding `links: available, md5:
unavailable`, a later call against a store that is down (links) resp. healthy
(md5) still returns the cached values with zero probes. -/
theorem c10_cache_never_transitions_witness :
    can_we_check_links apiProbeFail cfgX ⟨some true, some false⟩ =
      (true, ⟨some true, some false⟩, 0) ∧
    can_we_check_md5 apiProbeOk cfgX ⟨some true, some false⟩ =
      (false, ⟨some true, some false⟩, 0) :=
  ⟨(c10_cache_never_transitions apiProbeFail apiProbeOk cfgX cfgX
      ⟨some true, some false⟩ true false).1 rfl,
   (c10_cache_never_transitions apiProbeFail apiProbeOk cfgX cfgX
      ⟨some true, some false⟩ true false).2 rfl⟩

/-! ## Claim C4 -/

/-- Counterexample to claim C4 as stated: after a single failed probe the
code never issues another probe, however much time passes and even if the
store recovers. Concretely: the first `can_we_check_links` call against a
down store fails its one real probe and caches `unavailable`; a second call
against a healthy store performs zero probes and still reports unavailable —
there is no refresh interval after which "a new real probe is issued" (the
source has no clock or interval at all; its cache is documented at lines
70-74 as permanent). -/
theorem c4_counterexample :
    ((can_we_check_links apiProbeFail cfgX ⟨none, none⟩).1 = false ∧
     (can_we_check_links apiProbeFail cfgX ⟨none, none⟩).2.2 = 1) ∧
    (can_we_check_links apiProbeOk cfgX
        (can_we_check_links apiProbeFail cfgX ⟨none, none⟩).2.1).1 = false ∧
    (can_we_check_links apiProbeOk cfgX
        (can_we_check_links apiProbeFail cfgX ⟨none, none⟩).2.1).2.2 = 0 := by
  refine ⟨⟨rfl, rfl⟩, rfl, rfl⟩

/-- Claim C4 as amended: for each list, the availability state is computed by
at most one real store probe per filter lifetime and is never recomputed:
any call performs at most one probe, and after any first call, a second call
— with any collaborators, i.e. after any elapsed time — performs zero probes
and returns exactly the first call's value. A failed probe therefore makes
the state permanently unavailable; no refresh interval exists. -/
theorem c4_availability_probed_at_most_once (api api2 : Api) (cfg : Config)
    (s : FilterState) :
    ((can_we_check_links api cfg s).2.2 ≤ 1 ∧
     (can_we_check_links api2 cfg (can_we_check_links api cfg s).2.1).2.2 = 0 ∧
     (can_we_check_links api2 cfg (can_we_check_links api cfg s).2.1).1 =
       (can_we_check_links api cfg s).1) ∧
    ((can_we_check_md5 api cfg s).2.2 ≤ 1 ∧
     (can_we_check_md5 api2 cfg (can_we_check_md5 api cfg s).2.1).2.2 = 0 ∧
     (can_we_check_md5 api2 cfg (can_we_check_md5 api cfg s).2.1).1 =
       (can_we_check_md5 api cfg s).1) := by
  constructor
  · rcases s with ⟨cl, cm⟩
    rcases cl with _ | b
    · rcases hT : cfg.links_table with _ | t
      · simp [can_we_check_links, hT]
      · rcases hp : api.probeLinksOk <;>
          simp [can_we_check_links, hT, hp]
    · simp [can_we_check_links]
  · rcases s with ⟨cl, cm⟩
    rcases cm with _ | b
    · rcases hT : cfg.md5_table with _ | t
      · simp [can_we_check_md5, hT]
      · rcases hp : api.probeMd5Ok <;>
          simp [can_we_check_md5, hT, hp]
    · simp [can_we_check_md5]

/-! ## Claim C7 -/

/-- Claim C7: any error while retrieving the content — a raised exception
(network error, timeout) or a 429 rate-limiting response — makes the media
branch return `False` (allow) rather than raise. -/
theorem c7_download_failure_allows (api : Api) (cfg : Config) (url : String)
    (hreq : ∀ u, api.request u = .error () ∨
      ∃ r, api.request u = .ok r ∧ r.code = 429) :
    (check_upload api cfg url).1 = .ok false := by
  rcases hm : mxcMatch url with _ | ⟨sv, md⟩
  · simp [check_upload, hm]
  · rcases hreq (cfg.base_url ++ "/_matrix/media/r0/download/" ++
        urlquote sv ++ "/" ++ urlquote md) with h | ⟨r, h, h429⟩
    · simp [check_upload, hm, h]
    · simp [check_upload, hm, h, h429]

/-- Witness for C7: a concrete upload whose download raises is allowed. -/
theorem c7_download_failure_allows_witness :
    (check_upload apiProbeOk cfgX "mxc://srv/med").1 = .ok false :=
  c7_download_failure_allows apiProbeOk cfgX "mxc://srv/med"
    (fun _ => Or.inl rfl)

/-! ## Claim C1 -/

/-- Counterexample to claim C1 as stated: a message whose body contains the
blocked table entry "evil.example.com/" as a contiguous run, with the link
list available (the probe succeeds and a healthy database serves the lookup),
is nevertheless allowed. The linkifier extracts the full URL
`http://evil.example.com/bad`; after normalization, the single row the
database inspects is `evil.example.com/a` — the greatest row `<=` the link —
which is not a prefix of the link, so the shorter blocked prefix is missed. -/
theorem c1_counterexample :
    (check_event_for_spam
      ⟨true, true,
        (fun l => .ok (db_is_bad_link ["evil.example.com/", "evil.example.com/a"] l)),
        (fun _ => .ok false), (fun _ => .error ()),
        (fun t => if t == "click http://evil.example.com/bad now"
          then ["http://evil.example.com/bad"] else [])⟩
      cfgX ⟨none, none⟩
      ⟨"m.room.message", "click http://evil.example.com/bad now", "",
        "m.text", ""⟩).result = .ok false ∧
    hasSubstr "click http://evil.example.com/bad now" "evil.example.com/" = true ∧
    "evil.example.com/" ∈
      (["evil.example.com/", "evil.example.com/a"] : List String) := by
  refine ⟨by rfl, by decide, by decide⟩

/-- Claim C1 as amended: whenever the link list is available, the database
lookups are served by a healthy store over `rows`, and some candidate text
(plain body or formatted body) yields a linkifier-extracted url whose
normalization (lower-casing plus scheme stripping) passes the stored-url
prefix test `_db_is_bad_link`, the event is rejected — in particular when
such a url occurs only in the formatted body and not the plain body. -/
theorem c1_bad_extracted_link_rejects (api : Api) (cfg : Config)
    (s : FilterState) (rows : List String) (event : Event)
    (htype : event.type = "m.room.message")
    (hcan : s.can_links = some true)
    (hdb : ∀ l, api.isBadLink l = .ok (db_is_bad_link rows l))
    (hfound : ∃ t ∈ [event.body, event.formatted_body],
      ∃ u ∈ api.linkify t, db_is_bad_link rows (normalize_link u) = true) :
    (check_event_for_spam api cfg s event).result = .ok true := by
  have hcl : can_we_check_links api cfg s = (true, s, 0) := by
    rw [can_we_check_links, hcan]
  have hsc : (scan_texts api [event.body, event.formatted_body]).1 = .ok true := by
    rw [scan_texts_pure_eq hdb]
    simpa [List.any_eq_true] using hfound
  simp [check_event_for_spam, htype, hcl, hsc]

/-- Witness for C1: a bad link present only in the formatted body (the plain
body yields no linkifier match) is rejected. -/
theorem c1_bad_extracted_link_rejects_witness :
    (check_event_for_spam
      ⟨true, true, (fun l => .ok (db_is_bad_link ["evil.example.com"] l)),
        (fun _ => .ok false), (fun _ => .error ()),
        (fun t => if t == "rich text hiding http://evil.example.com/1234"
          then ["http://evil.example.com/1234"] else [])⟩
      cfgX ⟨some true, none⟩
      ⟨"m.room.message", "A text without any link",
        "rich text hiding http://evil.example.com/1234", "m.text", ""⟩).result
      = .ok true :=
  c1_bad_extracted_link_rejects _ cfgX _ ["evil.example.com"] _ rfl rfl
    (fun _ => rfl)
    ⟨"rich text hiding http://evil.example.com/1234", by decide,
      "http://evil.example.com/1234", by decide, by decide⟩

/-! ## Claim C2 -/

/-- Counterexample to claim C2 as stated: a message containing no blocked
substring at all (in either candidate text, as given) is rejected anyway,
because the code lower-cases the extracted url before the lookup: the body
`See HTTP://EVIL.EXAMPLE.COM now` does not contain the blocked entry
`evil.example.com`, yet the event is rejected. -/
theorem c2_counterexample :
    (check_event_for_spam
      ⟨true, true, (fun l => .ok (db_is_bad_link ["evil.example.com"] l)),
        (fun _ => .ok false), (fun _ => .error ()),
        (fun t => if t == "See HTTP://EVIL.EXAMPLE.COM now"
          then ["HTTP://EVIL.EXAMPLE.COM"] else [])⟩
      cfgX ⟨none, none⟩
      ⟨"m.room.message", "See HTTP://EVIL.EXAMPLE.COM now", "",
        "m.text", ""⟩).result = .ok true ∧
    raw_match ["evil.example.com"] ["See HTTP://EVIL.EXAMPLE.COM now", ""]
      = false := by
  refine ⟨by rfl, by decide⟩

/-- Claim C2 as amended: for a non-media message, if the database lookups are
served by a healthy store over `rows` and no linkifier-extracted url from
either candidate text passes the prefix test after normalization, the event
is allowed — whatever the availability state (the state is universally
quantified, so this holds for available, unavailable, and unknown alike). -/
theorem c2_no_bad_extracted_link_allows (api : Api) (cfg : Config)
    (s : FilterState) (rows : List String) (event : Event)
    (htype : event.type = "m.room.message")
    (hmedia : media_msgtypes.contains event.msgtype = false)
    (hdb : ∀ l, api.isBadLink l = .ok (db_is_bad_link rows l))
    (hnone : ∀ t ∈ [event.body, event.formatted_body],
      ∀ u ∈ api.linkify t, db_is_bad_link rows (normalize_link u) = false) :
    (check_event_for_spam api cfg s event).result = .ok false := by
  have hm2 : event.msgtype ∉ media_msgtypes := by simpa using hmedia
  have hsc : (scan_texts api [event.body, event.formatted_body]).1 = .ok false := by
    rw [scan_texts_pure_eq hdb]
    simpa [List.any_eq_false] using hnone
  rcases hcl : can_we_check_links api cfg s with ⟨canL, s1, n⟩
  cases canL
  · simp [check_event_for_spam, htype, hcl, hm2]
  · simp [check_event_for_spam, htype, hcl, hsc, hm2]

/-- Witness for C2: a message with a good link only is allowed, with the link
list available. -/
theorem c2_no_bad_extracted_link_allows_witness :
    (check_event_for_spam
      ⟨true, true, (fun l => .ok (db_is_bad_link ["evil.example.com"] l)),
        (fun _ => .ok false), (fun _ => .error ()),
        (fun t => if t == "a good link to good.example.com"
          then ["good.example.com"] else [])⟩
      cfgX ⟨none, none⟩
      ⟨"m.room.message", "a good link to good.example.com", "",
        "m.text", ""⟩).result = .ok false :=
  c2_no_bad_extracted_link_allows _ cfgX _ ["evil.example.com"] _ rfl rfl
    (fun _ => rfl) (by decide)

/-! ## Claim C3 -/

/-- Counterexample to claim C3 as stated: the match result does not equal the
raw-substring match result on the unmodified text. The blocked entry
`secret mark` occurs contiguously in the body, but the linkifier extracts no
url from it (it is not a link), so the event is allowed while a raw substring
test over the text as given matches. -/
theorem c3_counterexample :
    (check_event_for_spam
      ⟨true, true, (fun l => .ok (db_is_bad_link ["secret mark"] l)),
        (fun _ => .ok false), (fun _ => .error ()), (fun _ => [])⟩
      cfgX ⟨none, none⟩
      ⟨"m.room.message", "has secret mark here", "", "m.text", ""⟩).result
      = .ok false ∧
    raw_match ["secret mark"] ["has secret mark here", ""] = true := by
  refine ⟨by rfl, by decide⟩

/-- Claim C3 as amended: with the link list available and a healthy store
over `rows`, the rejection decision is exactly "some linkifier-extracted url
from a candidate text, after lower-casing and scheme stripping
(`normalize_link`), passes the stored-url prefix test" — a normalized test on
the extracted urls, not a raw substring test on the unmodified text. -/
theorem c3_match_is_normalized_link_test (api : Api) (cfg : Config)
    (s : FilterState) (rows : List String) (event : Event)
    (htype : event.type = "m.room.message")
    (hmedia : media_msgtypes.contains event.msgtype = false)
    (hcan : s.can_links = some true)
    (hdb : ∀ l, api.isBadLink l = .ok (db_is_bad_link rows l)) :
    ((check_event_for_spam api cfg s event).result = .ok true ↔
      ∃ t ∈ [event.body, event.formatted_body], ∃ u ∈ api.linkify t,
        db_is_bad_link rows (normalize_link u) = true) := by
  have hcl : can_we_check_links api cfg s = (true, s, 0) := by
    rw [can_we_check_links, hcan]
  have hsc := scan_texts_pure_eq hdb [event.body, event.formatted_body]
  by_cases hany : ([event.body, event.formatted_body].any fun t =>
      (api.linkify t).any fun u => db_is_bad_link rows (normalize_link u)) = true
  · rw [hany] at hsc
    have hgoal : (check_event_for_spam api cfg s event).result = .ok true := by
      simp [check_event_for_spam, htype, hcl, hsc]
    rw [hgoal]
    constructor
    · intro _
      simpa [List.any_eq_true] using hany
    · intro _
      rfl
  · have hm2 : event.msgtype ∉ media_msgtypes := by simpa using hmedia
    rw [Bool.not_eq_true] at hany
    rw [hany] at hsc
    have hgoal : (check_event_for_spam api cfg s event).result = .ok false := by
      simp [check_event_for_spam, htype, hcl, hsc, hm2]
    rw [hgoal]
    constructor
    · intro h
      cases h
    · intro hex
      exfalso
      rcases hex with ⟨t, ht, u, hu, hbad⟩
      have hall : ([event.body, event.formatted_body].any fun t =>
          (api.linkify t).any fun u =>
            db_is_bad_link rows (normalize_link u)) = true :=
        List.any_eq_true.mpr ⟨t, ht, List.any_eq_true.mpr ⟨u, hu, hbad⟩⟩
      rw [hany] at hall
      cases hall

/-- Witness for C3: an upper-case, `https`-carrying url is rejected exactly
because of the normalization (the raw text does not contain the entry). -/
theorem c3_match_is_normalized_link_test_witness :
    (check_event_for_spam
      ⟨true, true, (fun l => .ok (db_is_bad_link ["evil.example.com"] l)),
        (fun _ => .ok false), (fun _ => .error ()),
        (fun t => if t == "go to HTTPS://EVIL.EXAMPLE.COM"
          then ["HTTPS://EVIL.EXAMPLE.COM"] else [])⟩
      cfgX ⟨some true, none⟩
      ⟨"m.room.message", "go to HTTPS://EVIL.EXAMPLE.COM", "",
        "m.text", ""⟩).result = .ok true :=
  (c3_match_is_normalized_link_test
    ⟨true, true, (fun l => .ok (db_is_bad_link ["evil.example.com"] l)),
      (fun _ => .ok false), (fun _ => .error ()),
      (fun t => if t == "go to HTTPS://EVIL.EXAMPLE.COM"
        then ["HTTPS://EVIL.EXAMPLE.COM"] else [])⟩
    cfgX ⟨some true, none⟩ ["evil.example.com"]
    ⟨"m.room.message", "go to HTTPS://EVIL.EXAMPLE.COM", "", "m.text", ""⟩
    rfl (by decide) rfl (fun _ => rfl)).mpr
    ⟨"go to HTTPS://EVIL.EXAMPLE.COM", by decide,
      "HTTPS://EVIL.EXAMPLE.COM", by decide, by decide⟩

/-! ## Claim C5 -/

/-- Counterexample to claim C5 as stated: a failing blocklist lookup during a
link check is not absorbed — the `run_db_interaction` call at line 137 is
outside any `try`, so the exception propagates out of `check_event_for_spam`
to the host instead of resolving to the allow result. -/
theorem c5_counterexample :
    (check_event_for_spam
      ⟨true, true, (fun _ => .error ()), (fun _ => .ok false),
        (fun _ => .error ()), (fun _ => ["http://x.example.com"])⟩
      cfgX ⟨none, none⟩
      ⟨"m.room.message", "http://x.example.com", "", "m.text", ""⟩).result
      = .error () := by
  rfl

/-- Claim C5 as amended: availability-probe failures and media download
request failures are absorbed to allow, but a failing blocklist lookup during
a link check, a failing blocklist lookup during a hash check, and a failure
while consuming the content stream all propagate to the host:
(1) a raising link lookup propagates out of `check_event_for_spam`;
(2) a raising `response.collect` propagates out of the media branch;
(3) a raising md5 lookup propagates out of the media branch;
(4) a raising download request is absorbed to allow. -/
theorem c5_lookup_errors_propagate :
    (∀ (api : Api) (cfg : Config) (s : FilterState) (event : Event)
        (u : String) (us : List String),
      event.type = "m.room.message" →
      s.can_links = some true →
      api.linkify event.body = u :: us →
      api.isBadLink (normalize_link u) = .error () →
      (check_event_for_spam api cfg s event).result = .error ()) ∧
    (∀ (api : Api) (cfg : Config) (url sv md : String),
      mxcMatch url = some (sv, md) →
      (∀ w, api.request w = .ok ⟨200, .error ()⟩) →
      (check_upload api cfg url).1 = .error ()) ∧
    (∀ (api : Api) (cfg : Config) (url sv md : String) (bs : List Nat),
      mxcMatch url = some (sv, md) →
      (∀ w, api.request w = .ok ⟨200, .ok bs⟩) →
      api.isBadUpload (md5hex bs) = .error () →
      (check_upload api cfg url).1 = .error ()) ∧
    (∀ (api : Api) (cfg : Config) (url : String),
      (∀ w, api.request w = .error ()) →
      (check_upload api cfg url).1 = .ok false) := by
  refine ⟨?_, ?_, ?_, ?_⟩
  · intro api cfg s event u us htype hcan hlf herr
    have hcl : can_we_check_links api cfg s = (true, s, 0) := by
      rw [can_we_check_links, hcan]
    have hsm : (scan_matches api (api.linkify event.body)).1 = .error () := by
      simp [scan_matches, hlf, herr]
    have hst : (scan_texts api [event.body, event.formatted_body]).1
        = .error () := by
      rw [scan_texts]
      rcases hp : scan_matches api (api.linkify event.body) with ⟨r, log⟩
      rw [hp] at hsm
      simp only [Prod.fst] at hsm
      subst hsm
      simp
    simp [check_event_for_spam, htype, hcl, hst]
  · intro api cfg url sv md hmxc hreq
    simp [check_upload, hmxc, hreq]
  · intro api cfg url sv md bs hmxc hreq herr
    simp [check_upload, hmxc, hreq, herr]
  · intro api cfg url hreq
    rcases hm : mxcMatch url with _ | ⟨sv, md⟩
    · simp [check_upload, hm]
    · simp [check_upload, hm, hreq]

/-- Witness for C5: each of the four behaviors at a concrete input. -/
theorem c5_lookup_errors_propagate_witness :
    (check_event_for_spam
      ⟨true, true, (fun _ => .error ()), (fun _ => .ok false),
        (fun _ => .error ()), (fun _ => ["http://x.example.com"])⟩
      cfgX ⟨some true, none⟩
      ⟨"m.room.message", "body text", "", "m.text", ""⟩).result = .error () ∧
    (check_upload
      ⟨true, true, (fun _ => .ok false), (fun _ => .ok false),
        (fun _ => .ok ⟨200, .error ()⟩), (fun _ => [])⟩
      cfgX "mxc://srv/med").1 = .error () ∧
    (check_upload
      ⟨true, true, (fun _ => .ok false), (fun _ => .error ()),
        (fun _ => .ok ⟨200, .ok [97]⟩), (fun _ => [])⟩
      cfgX "mxc://srv/med").1 = .error () ∧
    (check_upload
      ⟨true, true, (fun _ => .ok false), (fun _ => .ok false),
        (fun _ => .error ()), (fun _ => [])⟩
      cfgX "mxc://srv/med").1 = .ok false :=
  ⟨c5_lookup_errors_propagate.1 _ cfgX _
      ⟨"m.room.message", "body text", "", "m.text", ""⟩
      "http://x.example.com" [] rfl rfl rfl rfl,
   c5_lookup_errors_propagate.2.1 _ cfgX "mxc://srv/med" "srv" "med"
      (by rfl) (fun _ => rfl),
   c5_lookup_errors_propagate.2.2.1 _ cfgX "mxc://srv/med" "srv" "med" [97]
      (by rfl) (fun _ => rfl) rfl,
   c5_lookup_errors_propagate.2.2.2 _ cfgX "mxc://srv/med" (fun _ => rfl)⟩

/-! ## Claim C6 -/

/-- Claim C6: a raising availability probe is caught and translated to the
unavailable state, never propagated; with both probes raising (and no cached
`available` state in effect), `check_event_for_spam` — hence both the message
and the upload path — returns `False` for every event, configuration, and
remaining collaborator behavior. -/
theorem c6_both_probes_raise_all_allowed (api : Api) (cfg : Config)
    (s : FilterState) (event : Event)
    (hl : api.probeLinksOk = false) (hm : api.probeMd5Ok = false)
    (hsl : s.can_links ≠ some true) (hsm : s.can_md5 ≠ some true) :
    (check_event_for_spam api cfg s event).result = .ok false := by
  by_cases htype : event.type = "m.room.message"
  · rcases s with ⟨cl, cm⟩
    rcases cfg with ⟨lt, mt, bu⟩
    rcases cl with _ | (_ | _) <;> rcases cm with _ | (_ | _) <;>
      rcases lt with _ | t1 <;> rcases mt with _ | t2 <;>
      simp_all [check_event_for_spam, can_we_check_links, can_we_check_md5,
        apply_ite]
  · simp [check_event_for_spam, htype]

/-- Witness for C6: a concrete media event against a store whose probes both
raise is allowed. -/
theorem c6_both_probes_raise_all_allowed_witness :
    (check_event_for_spam apiProbeFail cfgX ⟨none, none⟩
      ⟨"m.room.message", "", "", "m.image", "mxc://srv/med"⟩).result
      = .ok false :=
  c6_both_probes_raise_all_allowed apiProbeFail cfgX ⟨none, none⟩
    ⟨"m.room.message", "", "", "m.image", "mxc://srv/med"⟩
    rfl rfl (by decide) (by decide)

/-! ## Claim C8 -/

/-- Claim C8: when the hash list is available and the content is retrieved,
the media branch finalizes the streamed content to a single MD5 digest,
performs exactly one database lookup of that digest, and rejects iff the
store reports a match; the digest of zero-byte content is
`d41d8cd98f00b204e9800998ecf8427e`, so empty content is rejected exactly when
that digest is in the hash table. -/
theorem c8_single_md5_lookup (api : Api) (cfg : Config) (s : FilterState)
    (event : Event) (hashes : List String) (bs : List Nat) (sv md : String)
    (htype : event.type = "m.room.message")
    (hlinks : s.can_links = some false)
    (hmedia : media_msgtypes.contains event.msgtype = true)
    (hmd5 : s.can_md5 = some true)
    (hmxc : mxcMatch event.url = some (sv, md))
    (hreq : ∀ u, api.request u = .ok ⟨200, .ok bs⟩)
    (hdb : ∀ d, api.isBadUpload d = .ok (db_is_bad_upload hashes d)) :
    (check_event_for_spam api cfg s event).md5Lookups = [md5hex bs] ∧
    (check_event_for_spam api cfg s event).result =
      .ok (db_is_bad_upload hashes (md5hex bs)) ∧
    md5hex [] = "d41d8cd98f00b204e9800998ecf8427e" := by
  have hcl : can_we_check_links api cfg s = (false, s, 0) := by
    rw [can_we_check_links, hlinks]
  have hcm : can_we_check_md5 api cfg s = (true, s, 0) := by
    rw [can_we_check_md5, hmd5]
  have hup : check_upload api cfg event.url =
      (.ok (db_is_bad_upload hashes (md5hex bs)), [md5hex bs]) := by
    simp [check_upload, hmxc, hreq, hdb]
  have hm2 : event.msgtype ∈ media_msgtypes := by simpa using hmedia
  refine ⟨?_, ?_, by decide⟩ <;>
    simp [check_event_for_spam, htype, hcl, hcm, hup, hm2]

/-- Witness for C8: a zero-byte upload against a hash table holding exactly
the empty-content digest is rejected, with exactly that one digest looked
up. -/
theorem c8_single_md5_lookup_witness :
    (check_event_for_spam
      ⟨true, true, (fun _ => .ok false),
        (fun d => .ok (db_is_bad_upload ["d41d8cd98f00b204e9800998ecf8427e"] d)),
        (fun _ => .ok ⟨200, .ok []⟩), (fun _ => [])⟩
      cfgX ⟨some false, some true⟩
      ⟨"m.room.message", "", "", "m.image", "mxc://srv/med"⟩).result
      = .ok true ∧
    (check_event_for_spam
      ⟨true, true, (fun _ => .ok false),
        (fun d => .ok (db_is_bad_upload ["d41d8cd98f00b204e9800998ecf8427e"] d)),
        (fun _ => .ok ⟨200, .ok []⟩), (fun _ => [])⟩
      cfgX ⟨some false, some true⟩
      ⟨"m.room.message", "", "", "m.image", "mxc://srv/med"⟩).md5Lookups
      = ["d41d8cd98f00b204e9800998ecf8427e"] := by
  have h := c8_single_md5_lookup
    ⟨true, true, (fun _ => .ok false),
      (fun d => .ok (db_is_bad_upload ["d41d8cd98f00b204e9800998ecf8427e"] d)),
      (fun _ => .ok ⟨200, .ok []⟩), (fun _ => [])⟩
    cfgX ⟨some false, some true⟩
    ⟨"m.room.message", "", "", "m.image", "mxc://srv/med"⟩
    ["d41d8cd98f00b204e9800998ecf8427e"] [] "srv" "med"
    rfl rfl (by decide) rfl (by rfl) (fun _ => rfl) (fun _ => rfl)
  refine ⟨h.2.1.trans ?_, h.1.trans ?_⟩
  · have hbad : db_is_bad_upload ["d41d8cd98f00b204e9800998ecf8427e"]
        (md5hex []) = true := by decide
    rw [hbad]
  · have hd : md5hex [] = "d41d8cd98f00b204e9800998ecf8427e" := by decide
    rw [hd]
